import Mathlib

/-!
Verification of the ftptool FTP convenience layer (ftp.py).

The Python source is shallowly embedded: pure helpers (`os.path` string
manipulation, `str.split`) become Lean functions on `String`; the stateful
FTP session becomes explicit state passing over an `FTPState` record; the
local filesystem becomes a `LocalFS` record; fallible calls return
`Except String`.  The remote server and the host filesystem are external
collaborators of the source; they are modelled by small concrete state
machines whose assumptions are stated in the doc comments.
-/

namespace Ftptool

/-! ## Python string and os.path helpers -/

/-- True for the whitespace characters that Python `str.split()` (with no
argument) splits on, restricted to the ones occurring in listing lines. -/
def wsChar (c : Char) : Bool :=
  c == ' ' || c == '\t' || c == '\n' || c == '\r'

/-- Worker for `splitWS`: `cur` is the current token, reversed. -/
def splitWSGo : List Char → List Char → List String
  | [], cur => if cur.isEmpty then [] else [String.mk cur.reverse]
  | c :: rest, cur =>
    if wsChar c then
      if cur.isEmpty then splitWSGo rest []
      else String.mk cur.reverse :: splitWSGo rest []
    else splitWSGo rest (c :: cur)

/-- Python `str.split()` with no argument: split on runs of whitespace,
discarding empty tokens. -/
def splitWS (s : String) : List String :=
  splitWSGo s.toList []

/-- Python `s.startswith(pre)`. -/
def startswith (s pre : String) : Bool :=
  pre.toList.isPrefixOf s.toList

/-- Python slicing `s[n:]` (by characters, as Python indexes strings). -/
def strDrop (s : String) (n : Nat) : String :=
  String.mk (s.toList.drop n)

/-- Python `s.lstrip(sep)` for `sep = "/"`. -/
def lstripSlash (s : String) : String :=
  String.mk (s.toList.dropWhile (fun c => c == '/'))

/-- Python `s.rstrip(sep)` for `sep = "/"`. -/
def rstripSlash (s : String) : String :=
  String.mk ((s.toList.reverse.dropWhile (fun c => c == '/')).reverse)

/-- posixpath.split: split a path into `(head, tail)` at the last slash;
the head keeps its trailing slash only when it is all slashes. -/
def posixSplit (p : String) : String × String :=
  let cs := p.toList
  let tailLen := (cs.reverse.takeWhile (fun c => c != '/')).length
  let i := cs.length - tailLen
  let head := cs.take i
  let tail := cs.drop i
  let head :=
    if head.any (fun c => c != '/') then
      (head.reverse.dropWhile (fun c => c == '/')).reverse
    else head
  (String.mk head, String.mk tail)

/-- posixpath.join restricted to two arguments, as the source always uses it. -/
def posixJoin (a b : String) : String :=
  if startswith b "/" then b
  else if a = "" || a.toList.getLast? = some '/' then a ++ b
  else a ++ "/" ++ b

/-- posixpath.dirname. -/
def dirname (p : String) : String :=
  (posixSplit p).1

/-! ## parse_dir_listing -/

/-- The six accumulator lists of `parse_dir_listing` (its keyword
parameters `dirs`, `files`, `links`, `pipes`, `sockets`, `devices`). -/
structure Buckets where
  dirs : List String
  files : List String
  links : List String
  pipes : List String
  sockets : List String
  devices : List String
deriving DecidableEq

/-- All six buckets empty. -/
def Buckets.empty : Buckets := ⟨[], [], [], [], [], []⟩

/-- ftp.py `parse_dir_listing(line, dirs, files, links, pipes, sockets,
devices)`: unpack the line into 9 whitespace-delimited fields (a Python
`ValueError` when the count differs), then append the last field to the
bucket selected by the first character of the mode field; an unrecognized
first character raises `ValueError`.  The six list arguments are taken and
returned as one `Buckets` record; which of them alias the module-level
defaults is the caller's affair (see `call_parse_dir_listing`). -/
def parse_dir_listing (line : String) (b : Buckets) : Except String Buckets :=
  let ts := splitWS line
  if ts.length = 9 then
    let mode := ts.getD 0 ""
    let name := ts.getD 8 ""
    if startswith mode "d" then .ok { b with dirs := b.dirs ++ [name] }
    else if startswith mode "-" then .ok { b with files := b.files ++ [name] }
    else if startswith mode "l" then .ok { b with links := b.links ++ [name] }
    else if startswith mode "p" then .ok { b with pipes := b.pipes ++ [name] }
    else if startswith mode "s" then .ok { b with sockets := b.sockets ++ [name] }
    else if startswith mode "c" || startswith mode "b" then
      .ok { b with devices := b.devices ++ [name] }
    else .error "ValueError: line type not recognized"
  else .error "ValueError: unpack expects 9 fields"

/-- Folding `parse_dir_listing` over the lines of one listing, stopping at
the first error, as `ftplib.FTP.dir` does when the per-line callback
raises. -/
def dirParse : List String → Buckets → Except String Buckets
  | [], b => .ok b
  | l :: rest, b =>
    match parse_dir_listing l b with
    | .error e => .error e
    | .ok b2 => dirParse rest b2

/-! ## Mutable default arguments of parse_dir_listing -/

/-- Which bucket arguments a particular call of `parse_dir_listing`
supplies; `none` means the argument is omitted, so the call binds the
module-level default list for that parameter (Python evaluates default
arguments once, at `def` time, so all calls share one list per omitted
parameter). -/
structure Provided where
  dirs : Option (List String)
  files : Option (List String)
  links : Option (List String)
  pipes : Option (List String)
  sockets : Option (List String)
  devices : Option (List String)
deriving DecidableEq

/-- The six lists a call of `parse_dir_listing` actually binds: the
caller's list where one was supplied, the module-level default list
where the argument was omitted. -/
def effBuckets (defaults : Buckets) (prov : Provided) : Buckets :=
  { dirs := prov.dirs.getD defaults.dirs
    files := prov.files.getD defaults.files
    links := prov.links.getD defaults.links
    pipes := prov.pipes.getD defaults.pipes
    sockets := prov.sockets.getD defaults.sockets
    devices := prov.devices.getD defaults.devices }

/-- The module-level default lists after one call: an append that went
through an omitted parameter mutated the shared default list; defaults
bound to parameters the caller supplied are untouched. -/
def newDefaults (defaults : Buckets) (prov : Provided) (b2 : Buckets) :
    Buckets :=
  { dirs := if prov.dirs.isSome then defaults.dirs else b2.dirs
    files := if prov.files.isSome then defaults.files else b2.files
    links := if prov.links.isSome then defaults.links else b2.links
    pipes := if prov.pipes.isSome then defaults.pipes else b2.pipes
    sockets := if prov.sockets.isSome then defaults.sockets else b2.sockets
    devices := if prov.devices.isSome then defaults.devices else b2.devices }

/-- One Python call `parse_dir_listing(line, **supplied)`: each omitted
argument binds the shared module-level default list (`defaults`), each
supplied argument binds the caller's list.  Returns the module-level
defaults after the call together with the effective buckets the call
appended to.  This models CPython default-argument semantics: default
argument expressions are evaluated once, at `def` time, so all calls
share one list object per omitted parameter. -/
def call_parse_dir_listing (defaults : Buckets) (prov : Provided)
    (line : String) : Except String (Buckets × Buckets) :=
  match parse_dir_listing line (effBuckets defaults prov) with
  | .error e => .error e
  | .ok b2 => .ok (newDefaults defaults prov b2, b2)

/-- The six classifications a recognized listing line can have, one per
bucket parameter of `parse_dir_listing`. -/
inductive BucketKind where
  | dirs
  | files
  | links
  | pipes
  | sockets
  | devices
deriving DecidableEq

/-- Projection of the bucket selected by a classification. -/
def Buckets.getB : BucketKind → Buckets → List String
  | .dirs, b => b.dirs
  | .files, b => b.files
  | .links, b => b.links
  | .pipes, b => b.pipes
  | .sockets, b => b.sockets
  | .devices, b => b.devices

/-- Projection of the supplied-or-omitted argument slot selected by a
classification. -/
def Provided.getP : BucketKind → Provided → Option (List String)
  | .dirs, p => p.dirs
  | .files, p => p.files
  | .links, p => p.links
  | .pipes, p => p.pipes
  | .sockets, p => p.sockets
  | .devices, p => p.devices

/-- The record `parse_dir_listing` returns for a line classified `k`:
`b` with `nm` appended to the `k` bucket. -/
def appendB : BucketKind → Buckets → String → Buckets
  | .dirs, b, nm => { b with dirs := b.dirs ++ [nm] }
  | .files, b, nm => { b with files := b.files ++ [nm] }
  | .links, b, nm => { b with links := b.links ++ [nm] }
  | .pipes, b, nm => { b with pipes := b.pipes ++ [nm] }
  | .sockets, b, nm => { b with sockets := b.sockets ++ [nm] }
  | .devices, b, nm => { b with devices := b.devices ++ [nm] }

/-- The classification the `parse_dir_listing` branch chain assigns to a
mode field: the same conditions, in the same order, as the source's
`if`/`elif` chain; `none` is the unrecognized (raising) case. -/
def classify (mode : String) : Option BucketKind :=
  if startswith mode "d" then some .dirs
  else if startswith mode "-" then some .files
  else if startswith mode "l" then some .links
  else if startswith mode "p" then some .pipes
  else if startswith mode "s" then some .sockets
  else if startswith mode "c" || startswith mode "b" then some .devices
  else none

/-- The exhaustive one-bucket-appended predicate: `b2` agrees with `b`
everywhere except that the single bucket selected by the first character
of `mode` gained `nm` at its end. -/
def appendsOneOf (mode : String) (b b2 : Buckets) (nm : String) : Prop :=
  (startswith mode "d" = true ∧ b2 = { b with dirs := b.dirs ++ [nm] }) ∨
  (startswith mode "-" = true ∧ b2 = { b with files := b.files ++ [nm] }) ∨
  (startswith mode "l" = true ∧ b2 = { b with links := b.links ++ [nm] }) ∨
  (startswith mode "p" = true ∧ b2 = { b with pipes := b.pipes ++ [nm] }) ∨
  (startswith mode "s" = true ∧ b2 = { b with sockets := b.sockets ++ [nm] }) ∨
  ((startswith mode "c" || startswith mode "b") = true ∧
    b2 = { b with devices := b.devices ++ [nm] })

/-! ## FTP session state

The remote server is the out-of-scope session collaborator.  It is
modelled as a set of existing directory paths plus the session's implicit
current directory: `CWD p` succeeds exactly when `p` exists, `MKD p`
succeeds exactly when `p` does not exist yet and its parent does (a
failure of either kind surfaces as `ftplib.Error`). -/

structure FTPState where
  dirs : List String
  cwd : String
deriving DecidableEq

/-- The `current_directory` setter, i.e. `ftplib.FTP.cwd`. -/
def cwd_op (st : FTPState) (p : String) : Except String FTPState :=
  if p ∈ st.dirs then .ok { st with cwd := p }
  else .error "550 no such directory"

/-- `FTP.mkdir`, i.e. `ftplib.FTP.mkd`. -/
def mkd (st : FTPState) (p : String) : Except String FTPState :=
  if p ∈ st.dirs then .error "550 directory exists"
  else if dirname p ∈ st.dirs then .ok { st with dirs := st.dirs ++ [p] }
  else .error "550 parent missing"

/-- The inner `recurse` closure of `FTP.get_remaining_directory`: try to
`cwd` into `directory`; on failure split off the last component, recurse
on the head, and join the tail back on.  The session state is threaded
because each successful `cwd` mutates it.  Python recursion depth is
modelled by `fuel`; exhaustion is Python's `RecursionError` (reached when
`os.path.split` stops shortening the path, e.g. probing below an
unreachable root). -/
def grdRecurse : Nat → FTPState → String → Except String (FTPState × String)
  | 0, _, _ => .error "RecursionError"
  | fuel + 1, st, directory =>
    match cwd_op st directory with
    | .ok st2 => .ok (st2, "")
    | .error _ =>
      let ht := posixSplit directory
      match grdRecurse fuel st ht.1 with
      | .error e => .error e
      | .ok (st2, name) => .ok (st2, rstripSlash (posixJoin name ht.2))

/-- `FTP.get_remaining_directory`: record the current directory, probe for
the deepest existing ancestor with `recurse`, restore the recorded
directory, and return the remaining relative suffix. -/
def get_remaining_directory (fuel : Nat) (st : FTPState) (directory : String) :
    Except String (FTPState × String) :=
  let current_directory := st.cwd
  match grdRecurse fuel st directory with
  | .error e => .error e
  | .ok (st2, remaining) =>
    match cwd_op st2 current_directory with
    | .error e => .error e
    | .ok st3 => .ok (st3, remaining)

/-- One iteration of the second `makedirs` loop: `directory =
os.path.join(directory, name)` followed by `self.mkdir(directory)` with
`ftplib.Error` swallowed.  The accumulator carries the session state, the
running `directory` value, and the log of every path handed to `mkdir`. -/
def mkdStep (acc : FTPState × String × List String) (name : String) :
    FTPState × String × List String :=
  let d := posixJoin acc.2.1 name
  match mkd acc.1 d with
  | .ok st2 => (st2, d, acc.2.2 ++ [d])
  | .error _ => (acc.1, d, acc.2.2 ++ [d])

/-- `FTP.makedirs`: compute the remaining suffix, apply `os.path.split` to
it (yielding a pair, which Python iterates as a 2-tuple and which is
always truthy for `if remaining:`), strip one `dirname` per tuple element,
then join the elements back one at a time, attempting `mkdir` on each
intermediate value with errors swallowed.  Returns the final session state
and the ordered list of paths on which creation was attempted. -/
def makedirs (fuel : Nat) (st : FTPState) (directory : String) :
    Except String (FTPState × List String) :=
  match get_remaining_directory fuel st directory with
  | .error e => .error e
  | .ok (st1, remainingStr) =>
    let pair := posixSplit remainingStr
    let remaining := [pair.1, pair.2]
    if remaining = [] then .ok (st1, [])
    else
      let dir1 := remaining.foldl (fun d _ => dirname d) directory
      let res := remaining.foldl mkdStep (st1, dir1, [])
      .ok (res.1, res.2.2)

/-- `makedirs` with the fuel bound any actual Python run stays under:
the probe recursion shortens the path at each level. -/
def makedirsRun (st : FTPState) (directory : String) :
    Except String (FTPState × List String) :=
  makedirs (directory.length + 1) st directory

/-! ## Directory listing and walk -/

/-- The remote listing collaborator: each existing directory maps to the
raw text lines `ftplib.FTP.dir` reports for it; listing a path that is
absent fails (permission denied, vanished, not a directory...). -/
def RemoteFS := List (String × List String)

/-- Look up the listing lines of a directory. -/
def lookupFS (fs : RemoteFS) (p : String) : Option (List String) :=
  match fs with
  | [] => none
  | e :: rest => if e.1 = p then some e.2 else lookupFS rest p

/-- `FTP.dir`: run the listing with a `partial` of `parse_dir_listing`
that supplies fresh `dirs` and `files` buckets and returns them as a pair.
The four omitted buckets alias the module-level defaults (see
`call_parse_dir_listing`); since their contents never influence the pair
returned here, they are represented by empty lists. -/
def dir (fs : RemoteFS) (directory : String) :
    Except String (List String × List String) :=
  match lookupFS fs directory with
  | none => .error "550 listing failed"
  | some lines =>
    match dirParse lines Buckets.empty with
    | .error e => .error e
    | .ok b => .ok (b.dirs, b.files)

/-- One element of the `walk` stream: `(directory, dirs, files)`. -/
def Tup := String × List String × List String

/-- `FTP.walk`, written over an explicit worklist of sibling
directories.  The generator is represented by the list of tuples it
yields plus `none` for normal exhaustion or `some e` for an exception
raised while iterating.  Faithful points: a listing failure is reported
to `onerror` (here: `onerror=None`) and ends that subtree only; the
pre-order branch yields `(directory, d[0], d[1])` before recursing; the
post-order branch executes `yield top, d[0], d[1]` where `top` is an
undefined name, so reaching it raises `NameError`; recursion descends
into `os.path.join(directory, name)` for each `name` in the dirs bucket
unless `followlinks` is false and the host `os.path.islink` (a local
filesystem predicate, passed in as `islink`) holds for that string.
`fuel` bounds the recursion depth as in `grdRecurse`. -/
def walkL (fuel : Nat) (fs : RemoteFS) (islink : String → Bool)
    (topdown followlinks : Bool) : List String → List Tup × Option String :=
  match fuel with
  | 0 => fun _ => ([], some "RecursionError")
  | fuel + 1 => fun work =>
    match work with
    | [] => ([], none)
    | directory :: rest =>
      let cur : List Tup × Option String :=
        match dir fs directory with
        | .error _ => ([], none)
        | .ok d =>
          let pre : List Tup := if topdown then [(directory, d.1, d.2)] else []
          let subs := (d.1.map (fun name => posixJoin directory name)).filter
            (fun s => followlinks || !(islink s))
          let r := walkL fuel fs islink topdown followlinks subs
          match r.2 with
          | some e => (pre ++ r.1, some e)
          | none =>
            if topdown then (pre ++ r.1, none)
            else (pre ++ r.1, some "NameError: top is not defined")
      match cur.2 with
      | some e => (cur.1, some e)
      | none =>
        let r2 := walkL fuel fs islink topdown followlinks rest
        (cur.1 ++ r2.1, r2.2)

/-- `FTP.walk(directory, topdown, onerror=None, followlinks)` with a fuel
budget ample for the finite listing maps used in the theorems. -/
def walk (fs : RemoteFS) (islink : String → Bool) (directory : String)
    (topdown followlinks : Bool) : List Tup × Option String :=
  walkL 100 fs islink topdown followlinks [directory]

/-! ## Local filesystem and the two tree transfers -/

/-- The host filesystem collaborator, reduced to the set of directories
that exist locally (the only local state the transfer code queries). -/
structure LocalFS where
  dirs : List String
deriving DecidableEq

/-- `os.makedirs(p)` with the default `exist_ok=False`: raises
`FileExistsError` when `p` already exists, otherwise creates it (the
recursive creation of missing ancestors is not material to any claim and
is elided; only the created leaf is recorded). -/
def makedirsLocal (lfs : LocalFS) (p : String) : Except String LocalFS :=
  if p ∈ lfs.dirs then .error "FileExistsError"
  else .ok ⟨lfs.dirs ++ [p]⟩

/-- The shared destination-directory computation of both transfers:
`os.path.join(destRoot, source_directory[len(srcRoot):].lstrip(sep))`. -/
def target_directory_of (destRoot srcRoot source_directory : String) : String :=
  posixJoin destRoot (lstripSlash (strDrop source_directory srcRoot.length))

/-- The body of the `download_directory` loop for one walk tuple: create
each missing local subdirectory, then record one `(remote source, local
target)` transfer per file; the remote source goes through
`get_file_proxy`, which joins the session's current directory on. -/
def processDownTup (cwd server_directory local_directory : String)
    (acc : LocalFS × List (String × String)) (t : Tup) :
    LocalFS × List (String × String) :=
  let source_directory := t.1
  let target_directory := target_directory_of local_directory server_directory
    source_directory
  let lfs := t.2.1.foldl (fun (l : LocalFS) name =>
    let nm := posixJoin target_directory name
    if nm ∈ l.dirs then l else ⟨l.dirs ++ [nm]⟩) acc.1
  let txs := acc.2 ++ t.2.2.map (fun name =>
    (posixJoin cwd (posixJoin source_directory name),
     posixJoin target_directory name))
  (lfs, txs)

/-- `FTP.download_directory(server_directory, local_directory, automkdir)`:
optionally `os.makedirs(local_directory)` (raising if it exists), then
pre-order walk of the remote tree, mirroring directories locally and
recording each file transfer as a `(remote source, local target)` pair.
Returns the local filesystem, the transfer list, and the exception the
call raised, if any. -/
def download_directory (fs : RemoteFS) (islink : String → Bool)
    (lfs : LocalFS) (cwd server_directory local_directory : String)
    (automkdir : Bool) : LocalFS × List (String × String) × Option String :=
  match (if automkdir then makedirsLocal lfs local_directory else .ok lfs) with
  | .error e => (lfs, [], some e)
  | .ok lfs0 =>
    let w := walk fs islink server_directory true false
    let res := w.1.foldl (processDownTup cwd server_directory local_directory)
      (lfs0, [])
    (res.1, res.2, w.2)

/-- The body of the `upload_directory` loop for one `os.walk` tuple:
attempt `mkdir` for each subdirectory with `ftplib.Error` swallowed, then
record one `(local source, remote target)` transfer per file; the remote
target goes through `get_file_proxy`, which joins the session's current
directory on. -/
def uploadStep (server_directory local_directory : String)
    (acc : FTPState × List (String × String)) (t : Tup) :
    FTPState × List (String × String) :=
  let source_directory := t.1
  let target_directory := target_directory_of server_directory local_directory
    source_directory
  let st := t.2.1.foldl (fun (s : FTPState) name =>
    let nm := posixJoin target_directory name
    match mkd s nm with
    | .ok s2 => s2
    | .error _ => s) acc.1
  let txs := acc.2 ++ t.2.2.map (fun name =>
    (posixJoin source_directory name,
     posixJoin st.cwd (posixJoin target_directory name)))
  (st, txs)

/-- `FTP.upload_directory(local_directory, server_directory, automkdir)`:
optionally `os.makedirs(local_directory)` — the source reads
`local_directory` here, not `server_directory`, so with `automkdir` it
recreates the *local source* root and raises when it already exists —
then iterates the host's `os.walk(local_directory)`, whose tuples the
host collaborator supplies as `localTups`.  Returns the local filesystem,
the session state, the transfer list, and the exception raised, if any. -/
def upload_directory (lfs : LocalFS) (st : FTPState) (localTups : List Tup)
    (local_directory server_directory : String) (automkdir : Bool) :
    LocalFS × FTPState × List (String × String) × Option String :=
  match (if automkdir then makedirsLocal lfs local_directory else .ok lfs) with
  | .error e => (lfs, st, [], some e)
  | .ok lfs0 =>
    let r := localTups.foldl (uploadStep server_directory local_directory)
      (st, [])
    (lfs0, r.1, r.2, none)

/-! ## Concrete fixtures used by witnesses and counterexample runs -/

/-- A server with a single empty directory. -/
def fsLeaf : RemoteFS := [("/r", [])]

/-- A server whose root listing marks `sub` as a symbolic link (mode
character `l`) while `/r/sub` is in fact listable as a directory holding
one file. -/
def fsLink : RemoteFS :=
  [("/r", ["lrwxrwxrwx 1 u u 5 May 23 07:00 sub"]),
   ("/r/sub", ["-rw-r--r-- 1 u u 5 May 23 07:00 f.txt"])]

/-- The spec scenario tree: `/a/b` holds directory `c`, `/a/b/c` holds
file `d.txt`. -/
def fsTree : RemoteFS :=
  [("/a/b", ["drwxr-xr-x 1 u u 5 May 23 07:00 c"]),
   ("/a/b/c", ["-rw-r--r-- 1 u u 5 May 23 07:00 d.txt"])]

/-- The `os.walk` tuples the host reports for the local tree mirroring
`fsTree` under `/a/b`. -/
def tupsTree : List Tup := [("/a/b", ["c"], []), ("/a/b/c", [], ["d.txt"])]

/-- A server on which `/` and `/a` exist and nothing else. -/
def stRootA : FTPState := ⟨["/", "/a"], "/"⟩

/-- A listing line whose mode field starts with the unrecognized
character `x`. -/
def lineBadType : String := "xrw-r----- 1 user user 5 May 23 07:00 f"

/-- The directory line from the spec's scenario section. -/
def lineDirEx : String := "drw-r----- 1 user user 5 May 23 07:00 dir/"

/-- A second directory line, for observing persistence across calls. -/
def lineDirEx2 : String := "drwxr-xr-x 2 user user 7 May 24 08:00 other"

/-- A symlink listing line (mode character `l`). -/
def lineLinkEx : String := "lrwxrwxrwx 1 user user 5 May 23 07:00 link1"

/-- A second symlink listing line, for observing persistence across
calls. -/
def lineLinkEx2 : String := "lrwxrwxrwx 2 user user 7 May 24 08:00 link2"

/-- The argument configuration `FTP.dir` uses for its `partial` of
`parse_dir_listing`: fresh `dirs` and `files` lists supplied, the other
four buckets omitted (so they bind the module-level defaults). -/
def provDir : Provided := ⟨some [], some [], none, none, none, none⟩

/-! ## Helper lemmas -/

lemma cwd_op_ok {st st2 : FTPState} {p : String}
    (h : cwd_op st p = .ok st2) : st2 = { st with cwd := p } := by
  unfold cwd_op at h
  split at h
  · exact (Except.ok.injEq _ _).mp h |>.symm
  · exact absurd h (by simp)

lemma mkd_cwd {st st2 : FTPState} {p : String}
    (h : mkd st p = .ok st2) : st2.cwd = st.cwd := by
  unfold mkd at h
  split at h
  · exact absurd h (by simp)
  · split at h
    · cases h; rfl
    · exact absurd h (by simp)

lemma mkdStep_cwd (acc : FTPState × String × List String) (name : String) :
    (mkdStep acc name).1.cwd = acc.1.cwd := by
  unfold mkdStep
  cases h : mkd acc.1 (posixJoin acc.2.1 name) with
  | ok st2 => simp only [h]; exact mkd_cwd h
  | error e => simp only [h]

lemma foldl_mkdStep_cwd (names : List String)
    (acc : FTPState × String × List String) :
    (names.foldl mkdStep acc).1.cwd = acc.1.cwd := by
  induction names generalizing acc with
  | nil => rfl
  | cons n rest ih => rw [List.foldl_cons, ih, mkdStep_cwd]

lemma get_remaining_directory_cwd {fuel : Nat} {st st2 : FTPState}
    {directory remaining : String}
    (h : get_remaining_directory fuel st directory = .ok (st2, remaining)) :
    st2.cwd = st.cwd := by
  unfold get_remaining_directory at h
  cases hg : grdRecurse fuel st directory with
  | error e => simp only [hg] at h; exact absurd h (by simp)
  | ok p =>
    obtain ⟨stp, rem⟩ := p
    simp only [hg] at h
    cases hc : cwd_op stp st.cwd with
    | error e => simp only [hc] at h; exact absurd h (by simp)
    | ok st3 =>
      simp only [hc, Except.ok.injEq, Prod.mk.injEq] at h
      obtain ⟨h1, h2⟩ := h
      rw [← h1, cwd_op_ok hc]

lemma strDrop_append (s t : String) : strDrop (s ++ t) s.length = t := by
  cases s with
  | mk l1 =>
    cases t with
    | mk l2 =>
      show String.mk ((l1 ++ l2).drop l1.length) = String.mk l2
      rw [List.drop_left]

lemma len9 (l : List String) (h : l.length = 9) :
    ∃ a0 a1 a2 a3 a4 a5 a6 a7 a8,
      l = [a0, a1, a2, a3, a4, a5, a6, a7, a8] := by
  match l, h with
  | [a0, a1, a2, a3, a4, a5, a6, a7, a8], _ =>
    exact ⟨a0, a1, a2, a3, a4, a5, a6, a7, a8, rfl⟩

lemma parse_error_of_unrecognized (line : String) (t : String)
    (ht : (splitWS line).head? = some t)
    (hm : (startswith t "d" || startswith t "-" || startswith t "l" ||
           startswith t "p" || startswith t "s" || startswith t "c" ||
           startswith t "b") = false) (b : Buckets) :
    ∃ e, parse_dir_listing line b = .error e := by
  simp only [Bool.or_eq_false_iff] at hm
  obtain ⟨⟨⟨⟨⟨⟨hd, hf⟩, hl⟩, hp⟩, hs⟩, hc⟩, hb⟩ := hm
  by_cases h9 : (splitWS line).length = 9
  · have hmode : (splitWS line).getD 0 "" = t := by
      cases hsw : splitWS line with
      | nil => rw [hsw] at ht; simp at ht
      | cons a rest =>
        rw [hsw] at ht
        simp only [List.head?_cons, Option.some.injEq] at ht
        simp [ht]
    refine ⟨"ValueError: line type not recognized", ?_⟩
    simp only [parse_dir_listing, if_pos h9, hmode, hd, hf, hl, hp, hs, hc, hb]
    simp
  · refine ⟨"ValueError: unpack expects 9 fields", ?_⟩
    simp only [parse_dir_listing, if_neg h9]

lemma dirParse_error_of_bad_line (line : String)
    (hbad : ∀ b : Buckets, ∃ e, parse_dir_listing line b = .error e)
    (pre post : List String) (b : Buckets) :
    ∃ e, dirParse (pre ++ line :: post) b = .error e := by
  induction pre generalizing b with
  | nil =>
    obtain ⟨e, he⟩ := hbad b
    exact ⟨e, by simp [dirParse, he]⟩
  | cons l rest ih =>
    simp only [List.cons_append, dirParse]
    cases hp : parse_dir_listing l b with
    | error e => exact ⟨e, rfl⟩
    | ok b2 => exact ih b2

lemma dir_error_of_bad_line (line : String)
    (hbad : ∀ b : Buckets, ∃ e, parse_dir_listing line b = .error e)
    (fs : RemoteFS) (directory : String) (pre post : List String)
    (hlook : lookupFS fs directory = some (pre ++ line :: post)) :
    ∃ e, dir fs directory = .error e := by
  obtain ⟨e, he⟩ := dirParse_error_of_bad_line line hbad pre post Buckets.empty
  exact ⟨e, by simp [dir, hlook, he]⟩

lemma parse_classified (line nm : String) (t : List String) (b : Buckets)
    (k : BucketKind) (h : splitWS line = t) (hl : t.length = 9)
    (hk : classify (t.getD 0 "") = some k) (hn : t.getD 8 "" = nm) :
    parse_dir_listing line b = .ok (appendB k b nm) := by
  subst h
  unfold classify at hk
  simp only [parse_dir_listing, if_pos hl, hn]
  by_cases hd : startswith ((splitWS line).getD 0 "") "d" = true
  · rw [if_pos hd] at hk
    simp only [Option.some.injEq] at hk
    subst hk
    rw [if_pos hd]
    exact rfl
  · rw [if_neg hd] at hk
    rw [if_neg hd]
    by_cases hf : startswith ((splitWS line).getD 0 "") "-" = true
    · rw [if_pos hf] at hk
      simp only [Option.some.injEq] at hk
      subst hk
      rw [if_pos hf]
      exact rfl
    · rw [if_neg hf] at hk
      rw [if_neg hf]
      by_cases hli : startswith ((splitWS line).getD 0 "") "l" = true
      · rw [if_pos hli] at hk
        simp only [Option.some.injEq] at hk
        subst hk
        rw [if_pos hli]
        exact rfl
      · rw [if_neg hli] at hk
        rw [if_neg hli]
        by_cases hp : startswith ((splitWS line).getD 0 "") "p" = true
        · rw [if_pos hp] at hk
          simp only [Option.some.injEq] at hk
          subst hk
          rw [if_pos hp]
          exact rfl
        · rw [if_neg hp] at hk
          rw [if_neg hp]
          by_cases hs : startswith ((splitWS line).getD 0 "") "s" = true
          · rw [if_pos hs] at hk
            simp only [Option.some.injEq] at hk
            subst hk
            rw [if_pos hs]
            exact rfl
          · rw [if_neg hs] at hk
            rw [if_neg hs]
            by_cases hcb : (startswith ((splitWS line).getD 0 "") "c" ||
                startswith ((splitWS line).getD 0 "") "b") = true
            · rw [if_pos hcb] at hk
              simp only [Option.some.injEq] at hk
              subst hk
              rw [if_pos hcb]
              exact rfl
            · rw [if_neg hcb] at hk
              exact absurd hk (by simp)

lemma appendB_getB (k : BucketKind) (b : Buckets) (nm : String) :
    Buckets.getB k (appendB k b nm) = Buckets.getB k b ++ [nm] := by
  cases k <;> rfl

lemma effBuckets_getB (defaults : Buckets) (prov : Provided) (k : BucketKind)
    (hprov : Provided.getP k prov = none) :
    Buckets.getB k (effBuckets defaults prov) = Buckets.getB k defaults := by
  cases k <;> simp_all [Provided.getP, Buckets.getB, effBuckets]

lemma newDefaults_getB (defaults : Buckets) (prov : Provided) (b2 : Buckets)
    (k : BucketKind) (hprov : Provided.getP k prov = none) :
    Buckets.getB k (newDefaults defaults prov b2) = Buckets.getB k b2 := by
  cases k <;> simp_all [Provided.getP, Buckets.getB, newDefaults]

/-! ## Claim theorems -/

/-- Claim C1.  The claim states that `walk` with `topdown=false` yields
one tuple per visited directory, each strictly after its descendants.
The code cannot do this: its post-order branch is `yield top, d[0], d[1]`
and `top` is an undefined name, so the first directory to reach its
post-order yield raises `NameError` and the whole walk produces no
tuples at all — here evaluated on a server with one empty directory,
where the same walk in pre-order yields the expected single tuple. -/
theorem C1_postorder_walk_raises_NameError :
    walk fsLeaf (fun _ => false) "/r" false false
      = ([], some "NameError: top is not defined") ∧
    walk fsLeaf (fun _ => false) "/r" true false
      = ([("/r", [], [])], none) := ⟨rfl, rfl⟩

/-- Claim C2.  The claim states that `makedirs` creates the target and
every missing ancestor for any number of missing trailing segments.  The
code applies `os.path.split` to the remaining suffix, which yields only a
`(head, tail)` pair: with one missing segment (`/a/b` when only `/` and
`/a` exist) it attempts `MKD /` then `MKD /b`, creating `/b` but never
`/a/b`; with three missing segments (`/a/b/c/d`) it attempts the
nonexistent nested paths `/a/b/b/c` and `/a/b/b/c/d`, both of which fail
silently, creating nothing. -/
theorem C2_makedirs_split_pair_eval :
    makedirsRun stRootA "/a/b"
      = .ok (⟨["/", "/a", "/b"], "/"⟩, ["/", "/b"]) ∧
    "/a/b" ∉ (["/", "/a", "/b"] : List String) ∧
    makedirsRun stRootA "/a/b/c/d"
      = .ok (⟨["/", "/a"], "/"⟩, ["/a/b/b/c", "/a/b/b/c/d"]) :=
  ⟨rfl, by decide, rfl⟩

/-- Claim C7.  The claim states that `followlinks=true` makes `walk`
recurse into symbolic links that point to directories.  But a listing
line whose mode starts with `l` lands in the `links` bucket, which
`dir` discards, so a symlinked directory never enters the recursion set:
on `fsLink`, where `/r` lists `sub` as a symlink and `/r/sub` is
listable, the walk yields only the root tuple whether `followlinks` is
true or false, and `/r/sub` is never visited. -/
theorem C7_followlinks_has_no_effect_eval :
    walk fsLink (fun _ => false) "/r" true true = ([("/r", [], [])], none) ∧
    walk fsLink (fun _ => false) "/r" true false = ([("/r", [], [])], none) :=
  ⟨rfl, rfl⟩

/-- Claim C8: both transfers map a source path to the destination root
joined with the source path minus the source-root prefix, leading
separator trimmed; in particular, with source root `/a/b` and
destination root `/x`, the file `/a/b/c/d.txt` is transferred to
`/x/c/d.txt` — shown for a full `download_directory` run over `fsTree`
and a full `upload_directory` run over the mirror local tuples. -/
theorem C8_path_mapping :
    (∀ droot sroot rest name : String,
      posixJoin (target_directory_of droot sroot (sroot ++ rest)) name
        = posixJoin (posixJoin droot (lstripSlash rest)) name) ∧
    download_directory fsTree (fun _ => false) ⟨[]⟩ "/" "/a/b" "/x" true
      = (⟨["/x", "/x/c"]⟩, [("/a/b/c/d.txt", "/x/c/d.txt")], none) ∧
    upload_directory ⟨[]⟩ ⟨["/", "/x"], "/"⟩ tupsTree "/a/b" "/x" false
      = (⟨[]⟩, ⟨["/", "/x", "/x/c"], "/"⟩,
         [("/a/b/c/d.txt", "/x/c/d.txt")], none) := by
  refine ⟨?_, rfl, rfl⟩
  intro droot sroot rest name
  unfold target_directory_of
  rw [strDrop_append]

/-- Claim C9: with `automkdir` (the default), both transfer operations
call `os.makedirs` on the *local* directory first; when that local
directory already exists this raises `FileExistsError` and the operation
aborts with no listing consulted and no transfer made — for any remote
state whatsoever.  In particular `upload_directory` with the default
`automkdir` always fails when its local source directory exists. -/
theorem C9_automkdir_fails_on_existing_local (fs : RemoteFS)
    (islink : String → Bool) (lfs : LocalFS) (st : FTPState)
    (localTups : List Tup) (cwd server_directory local_directory : String)
    (h : local_directory ∈ lfs.dirs) :
    download_directory fs islink lfs cwd server_directory local_directory true
      = (lfs, [], some "FileExistsError") ∧
    upload_directory lfs st localTups local_directory server_directory true
      = (lfs, st, [], some "FileExistsError") := by
  constructor <;>
    simp [download_directory, upload_directory, makedirsLocal, h]

/-- Witness for C9 at a concrete state: the local directory `/a/b`
exists, so both operations abort with `FileExistsError`. -/
theorem C9_automkdir_fails_on_existing_local_witness :
    download_directory fsTree (fun _ => false) ⟨["/a/b"]⟩ "/" "/s" "/a/b" true
      = (⟨["/a/b"]⟩, [], some "FileExistsError") ∧
    upload_directory ⟨["/a/b"]⟩ ⟨["/", "/x"], "/"⟩ tupsTree "/a/b" "/x" true
      = (⟨["/a/b"]⟩, ⟨["/", "/x"], "/"⟩, [], some "FileExistsError") :=
  C9_automkdir_fails_on_existing_local fsTree (fun _ => false) ⟨["/a/b"]⟩
    ⟨["/", "/x"], "/"⟩ tupsTree "/" "/s" "/a/b" (by decide)

/-- Claim C5: a listing line whose first whitespace-delimited token
starts with a character outside `{d, -, l, p, s, c, b}` makes
`parse_dir_listing` raise, whatever bucket lists were supplied; the
error is not caught inside the listing operation, so any `dir` whose
listing contains such a line fails as a whole. -/
theorem C5_unrecognized_type_raises (line t : String)
    (ht : (splitWS line).head? = some t)
    (hm : (startswith t "d" || startswith t "-" || startswith t "l" ||
           startswith t "p" || startswith t "s" || startswith t "c" ||
           startswith t "b") = false) :
    (∀ b : Buckets, ∃ e, parse_dir_listing line b = .error e) ∧
    (∀ (fs : RemoteFS) (directory : String) (pre post : List String),
      lookupFS fs directory = some (pre ++ line :: post) →
      ∃ e, dir fs directory = .error e) := by
  have hbad := parse_error_of_unrecognized line t ht hm
  exact ⟨hbad, fun fs directory pre post hlook =>
    dir_error_of_bad_line line hbad fs directory pre post hlook⟩

/-- Witness for C5: the line `lineBadType` (mode field `xrw-r-----`)
makes `parse_dir_listing` fail with empty buckets and aborts the `dir`
of a directory listing it. -/
theorem C5_unrecognized_type_raises_witness :
    (∃ e, parse_dir_listing lineBadType Buckets.empty = .error e) ∧
    (∃ e, dir [("/r", [lineBadType])] "/r" = .error e) := by
  have h := C5_unrecognized_type_raises lineBadType "xrw-r-----" (by decide)
    (by decide)
  exact ⟨h.1 Buckets.empty, h.2 [("/r", [lineBadType])] "/r" [] [] (by decide)⟩

/-- Claim C6: whenever `parse_dir_listing` accepts a line, the appended
entry name is the last whitespace-delimited token and exactly one
bucket — the one matching the mode classification — is extended, all
others left untouched; and a line with fewer than 9 whitespace-delimited
fields is rejected with an error. -/
theorem C6_recognized_appends_exactly_one (line : String) (b : Buckets) :
    ((splitWS line).length < 9 → ∃ e, parse_dir_listing line b = .error e) ∧
    (∀ b2, parse_dir_listing line b = .ok b2 →
      ∃ nm, (splitWS line).getLast? = some nm ∧
        appendsOneOf ((splitWS line).getD 0 "") b b2 nm) := by
  constructor
  · intro hlt
    refine ⟨"ValueError: unpack expects 9 fields", ?_⟩
    simp only [parse_dir_listing, if_neg (by omega : ¬(splitWS line).length = 9)]
  · intro b2 h
    by_cases h9 : (splitWS line).length = 9
    · obtain ⟨a0, a1, a2, a3, a4, a5, a6, a7, a8, hts⟩ := len9 _ h9
      rw [hts]
      simp only [parse_dir_listing, hts] at h
      simp only [List.length_cons, List.length_nil] at h
      norm_num at h
      refine ⟨a8, by simp, ?_⟩
      have hgd : (([a0, a1, a2, a3, a4, a5, a6, a7, a8] : List String).getD 0 "")
          = a0 := rfl
      rw [hgd]
      unfold appendsOneOf
      by_cases hd : startswith a0 "d" = true
      · rw [if_pos hd] at h
        simp only [Except.ok.injEq] at h
        exact Or.inl ⟨hd, h.symm⟩
      · rw [if_neg hd] at h
        by_cases hf : startswith a0 "-" = true
        · rw [if_pos hf] at h
          simp only [Except.ok.injEq] at h
          exact Or.inr (Or.inl ⟨hf, h.symm⟩)
        · rw [if_neg hf] at h
          by_cases hl : startswith a0 "l" = true
          · rw [if_pos hl] at h
            simp only [Except.ok.injEq] at h
            exact Or.inr (Or.inr (Or.inl ⟨hl, h.symm⟩))
          · rw [if_neg hl] at h
            by_cases hp : startswith a0 "p" = true
            · rw [if_pos hp] at h
              simp only [Except.ok.injEq] at h
              exact Or.inr (Or.inr (Or.inr (Or.inl ⟨hp, h.symm⟩)))
            · rw [if_neg hp] at h
              by_cases hs : startswith a0 "s" = true
              · rw [if_pos hs] at h
                simp only [Except.ok.injEq] at h
                exact Or.inr (Or.inr (Or.inr (Or.inr (Or.inl ⟨hs, h.symm⟩))))
              · rw [if_neg hs] at h
                by_cases hcb : startswith a0 "c" = true ∨ startswith a0 "b" = true
                · rw [if_pos hcb] at h
                  simp only [Except.ok.injEq] at h
                  refine Or.inr (Or.inr (Or.inr (Or.inr (Or.inr ⟨?_, h.symm⟩))))
                  exact Bool.or_eq_true _ _ |>.mpr hcb
                · rw [if_neg hcb] at h
                  exact absurd h (by simp)
    · simp only [parse_dir_listing, if_neg h9] at h
      exact absurd h (by simp)

/-- Witness for C6: a short line is rejected, and the spec's directory
example line appends `dir/` to the dirs bucket and nothing else. -/
theorem C6_recognized_appends_exactly_one_witness :
    (∃ e, parse_dir_listing "a b c" Buckets.empty = .error e) ∧
    (∃ nm, (splitWS lineDirEx).getLast? = some nm ∧
      appendsOneOf ((splitWS lineDirEx).getD 0 "") Buckets.empty
        ⟨["dir/"], [], [], [], [], []⟩ nm) := by
  refine ⟨(C6_recognized_appends_exactly_one "a b c" Buckets.empty).1
    (by decide), ?_⟩
  exact (C6_recognized_appends_exactly_one lineDirEx Buckets.empty).2
    ⟨["dir/"], [], [], [], [], []⟩ rfl

/-- Claim C10: for every call that omits the bucket argument matching
the line's classification — whichever of the six classifications that
is — the entry name is appended to the shared module-level default list
for that bucket; the effect persists, every later call that also omits
that bucket binds the mutated list (shown for an arbitrary later
configuration), and a later such call extends it further, so parsing is
not stateless. -/
theorem C10_shared_default_buckets (defaults : Buckets) (prov : Provided)
    (k : BucketKind) (line1 line2 nm1 nm2 : String) (t1 t2 : List String)
    (h1 : splitWS line1 = t1) (h1l : t1.length = 9)
    (h1k : classify (t1.getD 0 "") = some k) (h1n : t1.getD 8 "" = nm1)
    (h2 : splitWS line2 = t2) (h2l : t2.length = 9)
    (h2k : classify (t2.getD 0 "") = some k) (h2n : t2.getD 8 "" = nm2)
    (hprov : Provided.getP k prov = none) :
    ∃ d1 r1, call_parse_dir_listing defaults prov line1 = .ok (d1, r1) ∧
      Buckets.getB k d1 = Buckets.getB k defaults ++ [nm1] ∧
      (∀ prov2 : Provided, Provided.getP k prov2 = none →
        Buckets.getB k (effBuckets d1 prov2)
          = Buckets.getB k defaults ++ [nm1]) ∧
      ∃ d2 r2, call_parse_dir_listing d1 prov line2 = .ok (d2, r2) ∧
        Buckets.getB k d2 = Buckets.getB k defaults ++ [nm1, nm2] := by
  have hp1 := parse_classified line1 nm1 t1 (effBuckets defaults prov) k
    h1 h1l h1k h1n
  have hc1 : call_parse_dir_listing defaults prov line1
      = .ok (newDefaults defaults prov
          (appendB k (effBuckets defaults prov) nm1),
        appendB k (effBuckets defaults prov) nm1) := by
    simp [call_parse_dir_listing, hp1]
  have hd1 : Buckets.getB k (newDefaults defaults prov
      (appendB k (effBuckets defaults prov) nm1))
      = Buckets.getB k defaults ++ [nm1] := by
    rw [newDefaults_getB _ _ _ _ hprov, appendB_getB,
      effBuckets_getB _ _ _ hprov]
  have hp2 := parse_classified line2 nm2 t2
    (effBuckets (newDefaults defaults prov
      (appendB k (effBuckets defaults prov) nm1)) prov) k h2 h2l h2k h2n
  have hc2 : call_parse_dir_listing
      (newDefaults defaults prov (appendB k (effBuckets defaults prov) nm1))
      prov line2
      = .ok (newDefaults
          (newDefaults defaults prov
            (appendB k (effBuckets defaults prov) nm1))
          prov
          (appendB k (effBuckets (newDefaults defaults prov
            (appendB k (effBuckets defaults prov) nm1)) prov) nm2),
        appendB k (effBuckets (newDefaults defaults prov
          (appendB k (effBuckets defaults prov) nm1)) prov) nm2) := by
    simp [call_parse_dir_listing, hp2]
  refine ⟨_, _, hc1, hd1, ?_, _, _, hc2, ?_⟩
  · intro prov2 hprov2
    rw [effBuckets_getB _ _ _ hprov2, hd1]
  · rw [newDefaults_getB _ _ _ _ hprov, appendB_getB,
      effBuckets_getB _ _ _ hprov, hd1]
    simp

/-- Witness for C10 at the links classification, under the very
configuration `FTP.dir` uses (`dirs`/`files` supplied, the other four
buckets omitted): two symlink lines append `link1` then `link2` to the
shared links default, and a call configured like `dir` binds the
mutated list. -/
theorem C10_shared_default_buckets_witness :
    ∃ d1 r1,
      call_parse_dir_listing Buckets.empty provDir lineLinkEx
        = .ok (d1, r1) ∧
      Buckets.getB .links d1
        = Buckets.getB .links Buckets.empty ++ ["link1"] ∧
      Buckets.getB .links (effBuckets d1 provDir)
        = Buckets.getB .links Buckets.empty ++ ["link1"] ∧
      ∃ d2 r2,
        call_parse_dir_listing d1 provDir lineLinkEx2 = .ok (d2, r2) ∧
        Buckets.getB .links d2
          = Buckets.getB .links Buckets.empty ++ ["link1", "link2"] := by
  obtain ⟨d1, r1, hc1, hd1, hobs, hrest⟩ :=
    C10_shared_default_buckets Buckets.empty provDir .links lineLinkEx
      lineLinkEx2 "link1" "link2" (splitWS lineLinkEx) (splitWS lineLinkEx2)
      rfl (by decide) (by decide) (by decide) rfl (by decide) (by decide)
      (by decide) (by decide)
  exact ⟨d1, r1, hc1, hd1, hobs provDir (by decide), hrest⟩

/-- Claim C4: whenever `makedirs` returns normally the session's current
directory equals the current directory before the call — the ancestor
probe saves and restores it, and `MKD` never moves it. -/
theorem C4_makedirs_preserves_cwd (fuel : Nat) (st : FTPState)
    (directory : String) (st2 : FTPState) (log : List String)
    (h : makedirs fuel st directory = .ok (st2, log)) :
    st2.cwd = st.cwd := by
  unfold makedirs at h
  cases hg : get_remaining_directory fuel st directory with
  | error e => simp only [hg] at h; exact absurd h (by simp)
  | ok p =>
    obtain ⟨st1, rem⟩ := p
    simp only [hg] at h
    rw [if_neg (by simp)] at h
    simp only [Except.ok.injEq, Prod.mk.injEq] at h
    obtain ⟨h1, h2⟩ := h
    rw [← h1, foldl_mkdStep_cwd]
    exact get_remaining_directory_cwd hg

/-- Witness for C4: `makedirs` on `/a/b` over `stRootA` returns normally
and the current directory is `/` before and after. -/
theorem C4_makedirs_preserves_cwd_witness :
    (⟨["/", "/a", "/b"], "/"⟩ : FTPState).cwd = stRootA.cwd :=
  C4_makedirs_preserves_cwd 5 stRootA "/a/b" ⟨["/", "/a", "/b"], "/"⟩
    ["/", "/b"] rfl

/-- Claim C3: on any server state where `/a` exists but `/a/b` and
`/a/b/c` do not (and the session's current directory is restorable),
`makedirs("/a/b/c")` performs exactly two creation attempts, `/a/b`
first and `/a/b/c` second, and both directories exist afterwards. -/
theorem C3_makedirs_two_attempts (st : FTPState) (h1 : "/a" ∈ st.dirs)
    (h2 : "/a/b" ∉ st.dirs) (h3 : "/a/b/c" ∉ st.dirs)
    (hc : st.cwd ∈ st.dirs) :
    ∃ st2, makedirsRun st "/a/b/c" = .ok (st2, ["/a/b", "/a/b/c"]) ∧
      "/a/b" ∈ st2.dirs ∧ "/a/b/c" ∈ st2.dirs := by
  have hsp3 : posixSplit "/a/b/c" = ("/a/b", "c") := by decide
  have hsp2 : posixSplit "/a/b" = ("/a", "b") := by decide
  have hj1 : rstripSlash (posixJoin "" "b") = "b" := by decide
  have hj2 : rstripSlash (posixJoin "b" "c") = "b/c" := by decide
  have hg : grdRecurse 7 st "/a/b/c" = .ok ({ st with cwd := "/a" }, "b/c") := by
    simp [grdRecurse, cwd_op, h1, h2, h3, hsp3, hsp2, hj1, hj2]
  have hgr : get_remaining_directory 7 st "/a/b/c" = .ok (st, "b/c") := by
    simp [get_remaining_directory, hg, cwd_op, hc]
  have hrun : makedirsRun st "/a/b/c" = makedirs 7 st "/a/b/c" := rfl
  have hspbc : posixSplit "b/c" = ("b", "c") := by decide
  have hdn3 : dirname "/a/b/c" = "/a/b" := by decide
  have hdn2 : dirname "/a/b" = "/a" := by decide
  have hja : posixJoin "/a" "b" = "/a/b" := by decide
  have hjb : posixJoin "/a/b" "c" = "/a/b/c" := by decide
  rw [hrun]
  simp [makedirs, hgr, hspbc, hdn3, hdn2, mkdStep, mkd, hja, hjb, h1, h2, h3]

/-- Witness for C3 at the concrete server `stRootA` (only `/` and `/a`
exist, current directory `/`). -/
theorem C3_makedirs_two_attempts_witness :
    ∃ st2, makedirsRun stRootA "/a/b/c" = .ok (st2, ["/a/b", "/a/b/c"]) ∧
      "/a/b" ∈ st2.dirs ∧ "/a/b/c" ∈ st2.dirs :=
  C3_makedirs_two_attempts stRootA (by decide) (by decide) (by decide)
    (by decide)

end Ftptool
